import Mathlib

/-!
Verification of the bson-transpilers code generators (Python and Java targets).

The definitions below are a shallow embedding of the repository's two source
files: the Java generator together with its CodeGenerator superclass
(src/codegeneration/JavaGenerator.js, which contains both), and the Python
generator mixin (src/unnamed/part_000).  Pure string-producing emitters are
translated to Lean functions; the sandbox evaluator is threaded through as an
explicit oracle parameter, and its context lifecycle is modelled by an
explicit trace.  Fallible code returns Except.
-/

set_option linter.unusedVariables false

deriving instance DecidableEq for Except

/-- The type tags of the translator's lightweight type system (SymbolTable
Types).  Ids follow the source: `_string`, `_integer`, ..., with `cls` for the
recognized class types (ObjectId, Code, ...).  `_numeric` is the union
sentinel expanded by the argument checker. -/
inductive Ty where
  | _string
  | _integer
  | _decimal
  | _hex
  | _octal
  | _bool
  | _null
  | _undefined
  | _regex
  | _object
  | _array
  | _numeric
  | cls (name : String)
  deriving DecidableEq, Repr

/-- The stable id string of a type (the source's `Type.id`). -/
def Ty.id : Ty → String
  | ._string => "_string"
  | ._integer => "_integer"
  | ._decimal => "_decimal"
  | ._hex => "_hex"
  | ._octal => "_octal"
  | ._bool => "_bool"
  | ._null => "_null"
  | ._undefined => "_undefined"
  | ._regex => "_regex"
  | ._object => "_object"
  | ._array => "_array"
  | ._numeric => "_numeric"
  | .cls n => n

/-- The error kinds raised by the generators (helper/error.js classes plus the
Java generator's CodeGenerationError, which we fold into `generic` as both
carry only a message).  `jsTypeError` is not one of the semantic error
classes: it models a raw JavaScript TypeError escaping from the generator
itself (its wording is engine-dependent, so it carries no message). -/
inductive SemErr where
  | argCount (msg : String)
  | typeErr (msg : String)
  | refErr (msg : String)
  | attrErr (msg : String)
  | generic (msg : String)
  | jsTypeError
  deriving DecidableEq, Repr

/-- A visited argument node: the string produced by `this.visit(arg)` and the
type written into the node's `type` slot during that visit. -/
structure Arg where
  render : String
  type : Ty
  deriving DecidableEq, Repr

/-- The single-quote character, built numerically so that quote handling stays
explicit in the embedding. -/
def squoteC : Char := Char.ofNat 39

/-- The double-quote character. -/
def dquoteC : Char := Char.ofNat 34

/-- Modelled from the spec: the quoting helpers live in
src/codegeneration/helpers.js, which is not part of the provided sources.
Per section 4.3 of the spec, each target wraps strings in its preferred quote
style and escapes embedded quotes of that kind with a backslash. -/
def escQuote (q : Char) : List Char → List Char
  | [] => []
  | c :: rest => if c = q then '\\' :: c :: escQuote q rest else c :: escQuote q rest

/-- Modelled from the spec: wrap in single quotes, escaping embedded single
quotes (the Python target's string rendering helper). -/
def singleQuoteStringify (s : String) : String :=
  String.mk (squoteC :: (escQuote squoteC s.data ++ [squoteC]))

/-- Modelled from the spec: wrap in double quotes, escaping embedded double
quotes (used by the Java target and by the Python raw-regex rendering). -/
def doubleQuoteStringify (s : String) : String :=
  String.mk (dquoteC :: (escQuote dquoteC s.data ++ [dquoteC]))

/-- Modelled from the spec: the superclass helper `removeQuotes` strips one
surrounding pair of matching quote characters when present. -/
def removeQuotes (s : String) : String :=
  match s.data with
  | [] => s
  | c :: rest =>
    if (c = squoteC ∨ c = dquoteC) ∧ rest ≠ [] ∧ rest.getLast? = some c then
      String.mk rest.dropLast
    else s

/-! ## Argument checker (CodeGenerator.checkArguments)

A schema (`expected` in the source) is an ordered list of slots; each slot is
the array of acceptable entries for that index, where the JavaScript `null`
sentinel (here `none`) marks the argument as omittable.  The source accepts an
argument when the slot contains its type object or its type's id string; since
ids are in bijection with types, both membership tests are modelled by
membership of `some type`. -/

/-- One slot of an argument schema. -/
abbrev Slot := List (Option Ty)

/-- The `_numeric` expansion test from the source: `args[i].type` is one of
`_integer`, `_decimal`, `_hex`, `_octal`. -/
def numericAccepts (t : Ty) : Bool :=
  decide (t = Ty._integer ∨ t = Ty._decimal ∨ t = Ty._hex ∨ t = Ty._octal)

/-- The per-slot acceptance test of `checkArguments`: either the slot lists
`_numeric` and the argument's type is one of the four numeric tags, or the
slot lists the argument's type itself (type object or id string). -/
def slotAccepts (slot : Slot) (t : Ty) : Bool :=
  decide ((some Ty._numeric ∈ slot ∧ numericAccepts t = true) ∨ some t ∈ slot)

/-- The type-error message of `checkArguments` (`expected types ... but got
type ... for argument at index ...`).  The source builds it with
`expected[i].map((e) => e.id ? e.id : e)`: a Type entry renders as its id (an
id string renders as itself, which coincides with `Ty.id` here).  For a slot
containing the `null` sentinel this map callback evaluates `null.id` and
throws a raw TypeError, so this message is never produced for such slots (the
checker raises `jsTypeError` instead, below); the `none` branch kept here for
totality renders the empty string, which is what `Array.join` would do with a
null element. -/
def typeMismatchMsg (slot : Slot) (t : Ty) (i : Nat) : String :=
  "expected types " ++
    String.intercalate "," (slot.map (fun o => match o with
      | some ty => ty.id
      | none => "")) ++
    " but got type " ++ t.id ++ " for argument at index " ++ toString i

/-- The too-many-arguments message of `checkArguments`. -/
def argsMismatchMsg (n k : Nat) : String :=
  "Arguments mismatch: expected " ++ toString n ++ " and got " ++ toString k

/-- The `for (let i = 0; i < expected.length; i++)` loop of `checkArguments`:
per slot, an absent argument succeeds with the strings collected so far when
the slot permits the `null` sentinel and otherwise raises an argument-count
mismatch; a present argument is rendered and accepted via `slotAccepts`.  On
a mismatch the source builds the message by mapping `e.id ? e.id : e` over
the slot: when the slot contains the `null` sentinel, `null.id` throws a raw
TypeError before any SemanticTypeError is constructed (`jsTypeError`);
otherwise the SemanticTypeError for that index is raised. -/
def checkLoop : List Slot → List Arg → Nat → List String → Except SemErr (List String)
  | [], _, _, acc => .ok acc
  | slot :: _, [], _, acc =>
    if none ∈ slot then .ok acc
    else .error (.argCount "too few arguments")
  | slot :: rest, a :: args, i, acc =>
    if slotAccepts slot a.type then checkLoop rest args (i + 1) (acc ++ [a.render])
    else if none ∈ slot then .error .jsTypeError
    else .error (.typeErr (typeMismatchMsg slot a.type i))

/-- CodeGenerator.checkArguments: a `none` argument list (the parse tree's
null `argumentList` for a zero-argument call) succeeds only against an empty
schema; a present list first rejects too many arguments, then runs the slot
loop. -/
def checkArguments (expected : List Slot) (argumentList : Option (List Arg)) :
    Except SemErr (List String) :=
  match argumentList with
  | none =>
    if expected.length = 0 then .ok []
    else .error (.argCount "arguments required")
  | some args =>
    if args.length > expected.length then
      .error (.argCount (argsMismatchMsg expected.length args.length))
    else checkLoop expected args 0 []

example :
    checkArguments [[some Ty._string], [none, some Ty._object]]
      (some [⟨"a", Ty._string⟩]) = .ok ["a"] := by decide

example :
    checkArguments [[some Ty._string]] (some [⟨"1", Ty._integer⟩]) =
      .error (.typeErr (typeMismatchMsg [some Ty._string] Ty._integer 0)) := by decide

example :
    checkArguments [[some Ty._string], [none, some Ty._object]]
      (some [⟨"a", Ty._string⟩, ⟨"1", Ty._integer⟩]) = .error .jsTypeError := by decide

/-- Whether the loop body would succeed: slots are consumed in order, an
exhausted argument list succeeding exactly when the next slot is optional. -/
def loopOk : List Slot → List Arg → Bool
  | [], _ => true
  | slot :: _, [] => decide (none ∈ slot)
  | slot :: rest, a :: args => slotAccepts slot a.type && loopOk rest args

/-- The error the loop raises when it does not succeed (meaningful whenever
`loopOk` is false and the argument list is no longer than the schema). -/
def loopErr : List Slot → List Arg → Nat → SemErr
  | [], _, _ => .generic ""
  | _ :: _, [], _ => .argCount "too few arguments"
  | slot :: rest, a :: args, i =>
    if slotAccepts slot a.type then loopErr rest args (i + 1)
    else if none ∈ slot then .jsTypeError
    else .typeErr (typeMismatchMsg slot a.type i)

/-- Whether slot `k` of the schema exists and permits the optional sentinel. -/
def optionalAt : List Slot → Nat → Bool
  | [], _ => false
  | slot :: _, 0 => decide (none ∈ slot)
  | _ :: rest, k + 1 => optionalAt rest k

/-- The default used only to state indexed lookups. -/
def argDefault : Arg := ⟨"", Ty._undefined⟩

theorem checkLoop_eq (expected : List Slot) :
    ∀ (args : List Arg) (i : Nat) (acc : List String),
      args.length ≤ expected.length →
      checkLoop expected args i acc =
        if loopOk expected args then .ok (acc ++ args.map Arg.render)
        else .error (loopErr expected args i) := by
  induction expected with
  | nil =>
    intro args i acc h
    cases args with
    | nil => simp [checkLoop, loopOk]
    | cons a as => simp at h
  | cons slot rest ih =>
    intro args i acc h
    cases args with
    | nil =>
      by_cases hopt : none ∈ slot <;> simp [checkLoop, loopOk, loopErr, hopt]
    | cons a as =>
      simp only [List.length_cons, Nat.add_le_add_iff_right] at h
      by_cases hacc : slotAccepts slot a.type = true
      · simp only [checkLoop, loopOk, loopErr, hacc, Bool.true_and, if_true]
        rw [ih as (i + 1) (acc ++ [a.render]) h]
        by_cases hok : loopOk rest as = true <;>
          simp [hok, List.append_assoc]
      · by_cases hopt : none ∈ slot <;>
          simp [checkLoop, loopOk, loopErr, hacc, hopt]

theorem loopOk_iff (expected : List Slot) :
    ∀ args : List Arg, args.length ≤ expected.length →
      (loopOk expected args = true ↔
        ((args.length = expected.length ∨ optionalAt expected args.length = true) ∧
          (args.zip expected).all (fun p => slotAccepts p.2 p.1.type) = true)) := by
  induction expected with
  | nil =>
    intro args h
    cases args with
    | nil => simp [loopOk, optionalAt]
    | cons a as => simp at h
  | cons slot rest ih =>
    intro args h
    cases args with
    | nil =>
      simp [loopOk, optionalAt]
    | cons a as =>
      simp only [List.length_cons, Nat.add_le_add_iff_right] at h
      simp only [loopOk, List.length_cons, Nat.add_right_cancel_iff, optionalAt,
        List.zip_cons_cons, List.all_cons, Bool.and_eq_true, ih as h]
      tauto

theorem loopErr_typeErr (expected : List Slot) :
    ∀ (args : List Arg) (i j : Nat),
      j < args.length → args.length ≤ expected.length →
      (∀ j', j' < j →
        slotAccepts (expected.getD j' []) ((args.getD j' argDefault).type) = true) →
      slotAccepts (expected.getD j []) ((args.getD j argDefault).type) = false →
      none ∉ expected.getD j [] →
      loopErr expected args i =
        .typeErr (typeMismatchMsg (expected.getD j [])
          ((args.getD j argDefault).type) (i + j)) := by
  induction expected with
  | nil =>
    intro args i j hj hlen _ _ _
    simp only [List.length_nil, Nat.le_zero] at hlen
    omega
  | cons slot rest ih =>
    intro args i j hj hlen hpre hbad hnopt
    cases args with
    | nil => simp at hj
    | cons a as =>
      cases j with
      | zero =>
        simp only [List.getD_cons_zero] at hbad hnopt
        simp [loopErr, hbad, hnopt]
      | succ j' =>
        have h0 : slotAccepts slot a.type = true := by
          have := hpre 0 (Nat.succ_pos j')
          simpa using this
        simp only [List.getD_cons_succ] at hbad hnopt
        simp only [loopErr, h0, if_true]
        have := ih as (i + 1) j' (by simpa using hj) (by simpa using hlen)
          (fun j'' hj'' => by
            have := hpre (j'' + 1) (Nat.succ_lt_succ hj'')
            simpa using this) hbad hnopt
        rw [this]
        have : i + 1 + j' = i + (j' + 1) := by omega
        rw [this]
        simp [List.getD_cons_succ]

theorem loopErr_jsTypeError (expected : List Slot) :
    ∀ (args : List Arg) (i j : Nat),
      j < args.length → args.length ≤ expected.length →
      (∀ j', j' < j →
        slotAccepts (expected.getD j' []) ((args.getD j' argDefault).type) = true) →
      slotAccepts (expected.getD j []) ((args.getD j argDefault).type) = false →
      none ∈ expected.getD j [] →
      loopErr expected args i = .jsTypeError := by
  induction expected with
  | nil =>
    intro args i j hj hlen _ _ _
    simp only [List.length_nil, Nat.le_zero] at hlen
    omega
  | cons slot rest ih =>
    intro args i j hj hlen hpre hbad hopt
    cases args with
    | nil => simp at hj
    | cons a as =>
      cases j with
      | zero =>
        simp only [List.getD_cons_zero] at hbad hopt
        simp [loopErr, hbad, hopt]
      | succ j' =>
        have h0 : slotAccepts slot a.type = true := by
          have := hpre 0 (Nat.succ_pos j')
          simpa using this
        simp only [List.getD_cons_succ] at hbad hopt
        simp only [loopErr, h0, if_true]
        exact ih as (i + 1) j' (by simpa using hj) (by simpa using hlen)
          (fun j'' hj'' => by
            have := hpre (j'' + 1) (Nat.succ_lt_succ hj'')
            simpa using this) hbad hopt

theorem loopErr_tooFew (expected : List Slot) :
    ∀ (args : List Arg) (i : Nat),
      args.length < expected.length →
      (args.zip expected).all (fun p => slotAccepts p.2 p.1.type) = true →
      optionalAt expected args.length = false →
      loopErr expected args i = .argCount "too few arguments" := by
  induction expected with
  | nil =>
    intro args i h _ _
    simp at h
  | cons slot rest ih =>
    intro args i h hall hopt
    cases args with
    | nil => simp [loopErr]
    | cons a as =>
      simp only [List.zip_cons_cons, List.all_cons, Bool.and_eq_true] at hall
      simp only [List.length_cons, optionalAt] at hopt h
      simp only [loopErr, hall.1, if_true]
      exact ih as (i + 1) (by omega) hall.2 hopt

theorem zipAll_accepts (expected : List Slot) :
    ∀ (args : List Arg) (j : Nat), j < args.length → args.length ≤ expected.length →
      (args.zip expected).all (fun p => slotAccepts p.2 p.1.type) = true →
      slotAccepts (expected.getD j []) ((args.getD j argDefault).type) = true := by
  induction expected with
  | nil =>
    intro args j hj hlen _
    simp only [List.length_nil, Nat.le_zero] at hlen
    omega
  | cons slot rest ih =>
    intro args j hj hlen hall
    cases args with
    | nil => simp at hj
    | cons a as =>
      simp only [List.zip_cons_cons, List.all_cons, Bool.and_eq_true] at hall
      cases j with
      | zero => simpa using hall.1
      | succ j' =>
        simp only [List.getD_cons_succ]
        exact ih as j' (by simpa using hj) (by simpa using hlen) hall.2

/-- C1, counterexample: a schema with one slot that permits the optional
sentinel has arity lower bound 0, yet `checkArguments` raises an
argument-count mismatch for a zero-argument call (the source accepts a null
argument list only against an empty schema), contradicting the claim that
such a call succeeds. -/
theorem c1_counterexample :
    (∀ slot ∈ ([[none, some Ty._string]] : List Slot), none ∈ slot) ∧
    checkArguments [[none, some Ty._string]] none =
      .error (.argCount "arguments required") := by
  constructor
  · intro slot h
    simp at h
    simp [h]
  · rfl

/-- C1 (amended): for a present argument list, `checkArguments` succeeds with
the rendered argument strings exactly when there are at most as many arguments
as slots, either every slot is filled or the first unfilled slot permits the
optional sentinel, and every supplied argument's type is accepted by its slot
(with `_numeric` accepting the four numeric tags); otherwise it fails exactly
once, at the first failure in slot order: a count mismatch when there are too
many arguments; at the first mismatched slot, a SemanticTypeError when that
slot has no sentinel entry, but a raw TypeError escaping from the message
construction (`null.id`) when it does; and a count mismatch when the first
absent slot is not optional.  A zero-argument call (null argument list),
however, succeeds only against an empty schema: even a schema all of whose
slots are optional raises an argument-count mismatch. -/
theorem c1_checkArguments_amended (expected : List Slot) (args : List Arg) :
    (checkArguments expected (some args) = .ok (args.map Arg.render) ↔
      (args.length ≤ expected.length ∧
        (args.length = expected.length ∨ optionalAt expected args.length = true) ∧
        (args.zip expected).all (fun p => slotAccepts p.2 p.1.type) = true)) ∧
    (args.length > expected.length →
      checkArguments expected (some args) =
        .error (.argCount (argsMismatchMsg expected.length args.length))) ∧
    (∀ j, j < args.length → args.length ≤ expected.length →
      (∀ j', j' < j →
        slotAccepts (expected.getD j' []) ((args.getD j' argDefault).type) = true) →
      slotAccepts (expected.getD j []) ((args.getD j argDefault).type) = false →
      none ∉ expected.getD j [] →
      checkArguments expected (some args) =
        .error (.typeErr (typeMismatchMsg (expected.getD j [])
          ((args.getD j argDefault).type) j))) ∧
    (∀ j, j < args.length → args.length ≤ expected.length →
      (∀ j', j' < j →
        slotAccepts (expected.getD j' []) ((args.getD j' argDefault).type) = true) →
      slotAccepts (expected.getD j []) ((args.getD j argDefault).type) = false →
      none ∈ expected.getD j [] →
      checkArguments expected (some args) = .error .jsTypeError) ∧
    (args.length < expected.length →
      (args.zip expected).all (fun p => slotAccepts p.2 p.1.type) = true →
      optionalAt expected args.length = false →
      checkArguments expected (some args) = .error (.argCount "too few arguments")) ∧
    (checkArguments expected none =
      if expected.length = 0 then .ok [] else .error (.argCount "arguments required")) := by
  refine ⟨?_, ?_, ?_, ?_, ?_, ?_⟩
  · constructor
    · intro hok
      by_cases hlen : args.length ≤ expected.length
      · refine ⟨hlen, ?_⟩
        simp only [checkArguments] at hok
        rw [if_neg (by omega), checkLoop_eq expected args 0 [] hlen] at hok
        by_cases hloop : loopOk expected args = true
        · exact (loopOk_iff expected args hlen).mp hloop
        · rw [if_neg hloop] at hok
          exact Except.noConfusion hok
      · exfalso
        simp only [checkArguments] at hok
        rw [if_pos (by omega)] at hok
        exact Except.noConfusion hok
    · rintro ⟨hlen, hrest⟩
      have hloop : loopOk expected args = true := (loopOk_iff expected args hlen).mpr hrest
      simp only [checkArguments]
      rw [if_neg (by omega), checkLoop_eq expected args 0 [] hlen, if_pos hloop]
      simp
  · intro hgt
    simp only [checkArguments]
    rw [if_pos (by omega)]
  · intro j hj hlen hpre hbad hnopt
    simp only [checkArguments]
    rw [if_neg (by omega), checkLoop_eq expected args 0 [] hlen]
    have hnotok : loopOk expected args ≠ true := by
      intro hloop
      have hall := ((loopOk_iff expected args hlen).mp hloop).2
      have := zipAll_accepts expected args j hj hlen hall
      rw [hbad] at this
      exact Bool.noConfusion this
    rw [if_neg hnotok]
    have := loopErr_typeErr expected args 0 j hj hlen hpre hbad hnopt
    rw [this]
    simp
  · intro j hj hlen hpre hbad hopt
    simp only [checkArguments]
    rw [if_neg (by omega), checkLoop_eq expected args 0 [] hlen]
    have hnotok : loopOk expected args ≠ true := by
      intro hloop
      have hall := ((loopOk_iff expected args hlen).mp hloop).2
      have := zipAll_accepts expected args j hj hlen hall
      rw [hbad] at this
      exact Bool.noConfusion this
    rw [if_neg hnotok]
    rw [loopErr_jsTypeError expected args 0 j hj hlen hpre hbad hopt]
  · intro hlt hall hopt
    simp only [checkArguments]
    have hlen : args.length ≤ expected.length := by omega
    rw [if_neg (by omega), checkLoop_eq expected args 0 [] hlen]
    have hnotok : loopOk expected args ≠ true := by
      intro hloop
      rcases ((loopOk_iff expected args hlen).mp hloop).1 with h | h
      · omega
      · rw [hopt] at h
        exact Bool.noConfusion h
    rw [if_neg hnotok, loopErr_tooFew expected args 0 hlt hall hopt]
  · rfl

/-- C1 witness: the amended theorem applied to the `Code(code[, scope])`-style
schema (one required slot, one optional slot) and a single well-typed
argument. -/
theorem c1_witness :
    checkArguments [[some Ty._string], [none, some Ty._object]]
      (some [⟨"a", Ty._string⟩]) = .ok ["a"] := by
  have h := (c1_checkArguments_amended [[some Ty._string], [none, some Ty._object]]
    [⟨"a", Ty._string⟩]).1.mpr (by refine ⟨by decide, ?_, by decide⟩; right; decide)
  exact h

/-! ## Sandbox evaluation (CodeGenerator.executeJavascript)

The context-eval `Context` lifecycle is modelled by an explicit trace counting
`new Context(sandbox)` allocations and `ctx.destroy()` calls, and recording
every string handed to `ctx.evaluate`.  The evaluation itself is an oracle
parameter, since it runs arbitrary JavaScript against the BSON shims. -/

/-- The observable effects of `executeJavascript` on sandbox contexts. -/
structure SandboxTrace where
  created : Nat
  destroyed : Nat
  evaluated : List String
  deriving DecidableEq, Repr

/-- CodeGenerator.executeJavascript: allocate a context, evaluate
`__result = <input>`, then `ctx.destroy()` and return.  The source has no
try/finally around `ctx.evaluate`, so when evaluation throws, the exception
propagates before the `ctx.destroy()` line is reached. -/
def executeJavascript {V : Type} (evalFn : String → Except String V)
    (input : String) (tr : SandboxTrace) : Except String V × SandboxTrace :=
  let tr1 : SandboxTrace :=
    { tr with created := tr.created + 1 }
  let wrapped := "__result = " ++ input
  match evalFn wrapped with
  | .ok res =>
    (.ok res,
      { tr1 with
          evaluated := tr1.evaluated ++ [wrapped],
          destroyed := tr1.destroyed + 1 })
  | .error e =>
    (.error e, { tr1 with evaluated := tr1.evaluated ++ [wrapped] })

/-- C2, counterexample: when evaluation throws, the freshly allocated context
is never destroyed — `executeJavascript` allocates one context, propagates the
error, and performs zero `destroy` calls, contradicting the claim that the
context is released on every exit path. -/
theorem c2_counterexample :
    (executeJavascript (V := Unit) (fun _ => .error "Unexpected token")
        "1 +" ⟨0, 0, []⟩).1 = .error "Unexpected token" ∧
    (executeJavascript (V := Unit) (fun _ => .error "Unexpected token")
        "1 +" ⟨0, 0, []⟩).2.created = 1 ∧
    (executeJavascript (V := Unit) (fun _ => .error "Unexpected token")
        "1 +" ⟨0, 0, []⟩).2.destroyed = 0 := by
  refine ⟨rfl, rfl, rfl⟩

/-- C2 (amended): every sandbox evaluation allocates a fresh evaluation
context and evaluates the fragment wrapped as `__result = <fragment>`; on a
successful evaluation the context is destroyed before the result is returned,
but when evaluation throws the exception propagates and the context is not
destroyed (there is no release on the failure path). -/
theorem c2_executeJavascript_amended {V : Type} (evalFn : String → Except String V)
    (input : String) (tr : SandboxTrace) :
    ((executeJavascript evalFn input tr).2.evaluated =
      tr.evaluated ++ ["__result = " ++ input]) ∧
    ((executeJavascript evalFn input tr).2.created = tr.created + 1) ∧
    (∀ v, evalFn ("__result = " ++ input) = .ok v →
      (executeJavascript evalFn input tr).1 = .ok v ∧
      (executeJavascript evalFn input tr).2.destroyed = tr.destroyed + 1) ∧
    (∀ e, evalFn ("__result = " ++ input) = .error e →
      (executeJavascript evalFn input tr).1 = .error e ∧
      (executeJavascript evalFn input tr).2.destroyed = tr.destroyed) := by
  refine ⟨?_, ?_, ?_, ?_⟩
  · cases h : evalFn ("__result = " ++ input) <;> simp [executeJavascript, h]
  · cases h : evalFn ("__result = " ++ input) <;> simp [executeJavascript, h]
  · intro v hv
    simp [executeJavascript, hv]
  · intro e he
    simp [executeJavascript, he]

/-- C2 witness: the amended theorem applied to a successful evaluation. -/
theorem c2_witness :
    (executeJavascript (V := Nat) (fun _ => .ok 7) "7" ⟨0, 0, []⟩).1 = .ok 7 ∧
    (executeJavascript (V := Nat) (fun _ => .ok 7) "7" ⟨0, 0, []⟩).2.destroyed = 1 := by
  have h := (c2_executeJavascript_amended (V := Nat) (fun _ => .ok 7) "7"
    ⟨0, 0, []⟩).2.2.1 7 rfl
  exact h

/-! ## BSONRegExp emitters (Python visitBSONRegExpConstructor, Java
emitBSONRegExp)

Both emitters receive the visited argument nodes; the flag strings are the
rendered (quoted) argument texts, exactly as in the source, where the Python
path strips the quotes via `removeQuotes` and the Java path skips the first
and last character by looping from index 1 to `length - 2`. -/

/-- Membership in the supported BSON regex flag set: identical in the Python
BSON_FLAGS object keys and the Java per-character checks. -/
def isBsonFlag (c : Char) : Bool :=
  decide (c = 'i' ∨ c = 'm' ∨ c = 'x' ∨ c = 's' ∨ c = 'l' ∨ c = 'u')

/-- The Python generator's BSON_FLAGS table: identity on the supported flags,
undefined (`none`) elsewhere. -/
def BSON_FLAGS (c : Char) : Option Char :=
  if isBsonFlag c then some c else none

/-- The Python generator's unsupported-flags message (the source misspells
"unsupported" as "unsuppoted"). -/
def pyBadFlagsMsg (bad : List Char) : String :=
  "Regular expression contains unsuppoted " ++ String.mk [squoteC] ++
    String.mk bad ++ String.mk [squoteC] ++ " flag"

/-- The Java generator's unsupported-flag string, which it returns (not
raises). -/
def javaBadFlagMsg (c : Char) : String :=
  "Error: the regular expression options [" ++ String.mk [c] ++ "] is not supported"

/-- Python visitBSONRegExpConstructor (src/unnamed/part_000, lines 630-693).
The argument-count test `getChildCount() !== 1 && getChildCount() !== 3` is
the source's way of testing for 1 or 2 arguments, the children of an
argument list being the expressions and the separating commas. -/
def visitBSONRegExpConstructor : Option (List Arg) → Except SemErr String
  | none => .error (.argCount "BSONRegExp requires one or two arguments")
  | some [a0] =>
    if a0.type ≠ Ty._string then
      .error (.typeErr "BSONRegExp requires pattern to be a string")
    else .ok ("RegExp(" ++ a0.render ++ ")")
  | some [a0, a1] =>
    if a0.type ≠ Ty._string then
      .error (.typeErr "BSONRegExp requires pattern to be a string")
    else if a1.type ≠ Ty._string then
      .error (.typeErr "BSONRegExp requires flags to be a string")
    else if a1.render = "" then
      .ok ("RegExp(" ++ a0.render ++ ", " ++ a1.render ++ ")")
    else
      let inner := (removeQuotes a1.render).data
      let unsuppoted := inner.filter (fun c => ! isBsonFlag c)
      if unsuppoted ≠ [] then
        .error (.generic (pyBadFlagsMsg unsuppoted))
      else
        .ok ("RegExp(" ++ a0.render ++ ", " ++
          singleQuoteStringify (String.mk ((inner.map BSON_FLAGS).filterMap id)) ++ ")")
  | some _ => .error (.argCount "BSONRegExp requires one or two arguments")

/-- The Java flag scan: `for (let i = 1; i < flags.length - 1; i++)` visits
the characters strictly between the surrounding quotes and exits the function
with the error string at the first unsupported one. -/
def firstBadJavaFlag (flags : String) : Option Char :=
  ((flags.data.drop 1).take (flags.data.length - 2)).find? (fun c => ! isBsonFlag c)

/-- Java emitBSONRegExp (src/codegeneration/JavaGenerator.js, lines 264-300).
On an unsupported flag it returns the error string as its result instead of
throwing. -/
def emitBSONRegExp : Option (List Arg) → Except SemErr String
  | none => .error (.argCount "BSONRegExp requires one or two arguments")
  | some [a0] =>
    if a0.type ≠ Ty._string then
      .error (.typeErr "BSONRegExp requires pattern to be a string")
    else .ok ("new BsonRegularExpression(" ++ a0.render ++ ")")
  | some [a0, a1] =>
    if a0.type ≠ Ty._string then
      .error (.typeErr "BSONRegExp requires pattern to be a string")
    else if a1.type ≠ Ty._string then
      .error (.typeErr "BSONRegExp requires flags to be a string")
    else
      match firstBadJavaFlag a1.render with
      | some c => .ok (javaBadFlagMsg c)
      | none => .ok ("new BsonRegularExpression(" ++ a0.render ++ ", " ++ a1.render ++ ")")
  | some _ => .error (.argCount "BSONRegExp requires one or two arguments")

/-- C3, counterexample: for `BSONRegExp('a', 'g')` (the JavaScript global flag
is not a BSON regex flag) the Python emitter raises a generic error, but the
Java emitter returns an output string spelling out the error instead of
raising — refuting the claim that both targets raise and neither returns an
output string. -/
theorem c3_counterexample :
    emitBSONRegExp (some [⟨doubleQuoteStringify "a", Ty._string⟩,
        ⟨doubleQuoteStringify "g", Ty._string⟩]) =
      .ok (javaBadFlagMsg 'g') ∧
    visitBSONRegExpConstructor (some [⟨singleQuoteStringify "a", Ty._string⟩,
        ⟨singleQuoteStringify "g", Ty._string⟩]) =
      .error (.generic (pyBadFlagsMsg ['g'])) := by
  exact ⟨by decide, by decide⟩

theorem escQuote_of_not_mem (q : Char) :
    ∀ l : List Char, (∀ c ∈ l, c ≠ q) → escQuote q l = l := by
  intro l
  induction l with
  | nil => intro _; rfl
  | cons c rest ih =>
    intro h
    have hc : c ≠ q := h c (List.mem_cons_self c rest)
    simp only [escQuote, if_neg hc]
    rw [ih (fun x hx => h x (List.mem_cons_of_mem c hx))]

theorem removeQuotes_singleQuoteStringify (l : List Char) (h : ∀ c ∈ l, c ≠ squoteC) :
    removeQuotes (singleQuoteStringify (String.mk l)) = String.mk l := by
  unfold singleQuoteStringify removeQuotes
  rw [escQuote_of_not_mem squoteC l h]
  simp only [String.data]
  rw [if_pos (by refine ⟨by simp, by simp, List.getLast?_concat _⟩)]
  rw [List.dropLast_concat]

theorem firstBadJavaFlag_doubleQuoteStringify (l : List Char) (h : ∀ c ∈ l, c ≠ dquoteC) :
    firstBadJavaFlag (doubleQuoteStringify (String.mk l)) =
      l.find? (fun c => ! isBsonFlag c) := by
  unfold doubleQuoteStringify firstBadJavaFlag
  rw [escQuote_of_not_mem dquoteC l h]
  simp only [String.data]
  have h1 : (dquoteC :: (l ++ [dquoteC])).drop 1 = l ++ [dquoteC] := rfl
  have h2 : (dquoteC :: (l ++ [dquoteC])).length - 2 = l.length := by simp
  rw [h1, h2, List.take_left' rfl]

/-- C3 (amended): for a `BSONRegExp(pattern, flags)` call whose two arguments
type as strings, if the flags string contains any character outside
`{i, m, x, s, l, u}`, then the Python emitter raises a generic error listing
the offending letters in order of appearance, while the Java emitter does not
raise: it returns as its output the string `Error: the regular expression
options [c] is not supported` for the first offending letter `c`. -/
theorem c3_bsonRegExpFlags_amended (pr : String) (fl : List Char)
    (hq : ∀ c ∈ fl, c ≠ squoteC ∧ c ≠ dquoteC)
    (hbad : fl.any (fun c => ! isBsonFlag c) = true) :
    visitBSONRegExpConstructor (some [⟨pr, Ty._string⟩,
        ⟨singleQuoteStringify (String.mk fl), Ty._string⟩]) =
      .error (.generic (pyBadFlagsMsg (fl.filter (fun c => ! isBsonFlag c)))) ∧
    (∃ c, fl.find? (fun c => ! isBsonFlag c) = some c ∧
      emitBSONRegExp (some [⟨pr, Ty._string⟩,
          ⟨doubleQuoteStringify (String.mk fl), Ty._string⟩]) =
        .ok (javaBadFlagMsg c)) := by
  constructor
  · have hne : singleQuoteStringify (String.mk fl) ≠ "" := by
      unfold singleQuoteStringify
      intro hcon
      have := congrArg String.data hcon
      simp at this
    have hrq := removeQuotes_singleQuoteStringify fl (fun c hc => (hq c hc).1)
    simp only [visitBSONRegExpConstructor]
    rw [if_neg (by simp), if_neg (by simp), if_neg hne, hrq]
    simp only [String.data]
    rw [if_pos]
    simp only [List.any_eq_true, Bool.not_eq_true'] at hbad
    obtain ⟨c, hcmem, hcbad⟩ := hbad
    intro hnil
    have := List.filter_eq_nil_iff.mp hnil c hcmem
    simp [hcbad] at this
  · cases hfind : fl.find? (fun c => ! isBsonFlag c) with
    | none =>
      exfalso
      simp only [List.any_eq_true] at hbad
      obtain ⟨c, hcmem, hcbad⟩ := hbad
      have := List.find?_eq_none.mp hfind c hcmem
      exact this hcbad
    | some c =>
      refine ⟨c, rfl, ?_⟩
      simp only [emitBSONRegExp]
      rw [if_neg (by simp), if_neg (by simp)]
      rw [firstBadJavaFlag_doubleQuoteStringify fl (fun c hc => (hq c hc).2), hfind]

/-- C3 witness: the amended theorem applied to `BSONRegExp('abc', 'g')`. -/
theorem c3_witness :
    visitBSONRegExpConstructor (some [⟨singleQuoteStringify "abc", Ty._string⟩,
        ⟨singleQuoteStringify (String.mk ['g']), Ty._string⟩]) =
      .error (.generic (pyBadFlagsMsg ['g'])) := by
  have h := (c3_bsonRegExpFlags_amended (singleQuoteStringify "abc") ['g']
    (by decide) (by decide)).1
  exact h

/-! ## Regular expression emitters (Python buildRegExp, Java
visitRegularExpressionLiteral)

Both emitters first sandbox-evaluate the regex source text to obtain
`regexobj.source` and `regexobj.flags` (modelled by the oracle returning a
pattern/flags pair), then apply `pattern.replace(/\\(?!\/)/, '\\\\')` — a
non-global replace that doubles only the first backslash not followed by a
slash — and finally translate the flags through the per-target table. -/

/-- `pattern.replace(/\\(?!\/)/, '\\\\')`: scan left to right; the first
character that is a backslash not immediately followed by a slash is doubled,
and everything after it is left untouched. -/
def replaceFirstBackslash : List Char → List Char
  | [] => []
  | c :: rest =>
    if c = '\\' ∧ rest.head? ≠ some '/' then '\\' :: '\\' :: rest
    else c :: replaceFirstBackslash rest

/-- Whether the scan of `replaceFirstBackslash` finds no match: every
backslash is immediately followed by a slash. -/
def noBackslashMatch : List Char → Bool
  | [] => true
  | c :: rest =>
    if c = '\\' ∧ rest.head? ≠ some '/' then false
    else noBackslashMatch rest

example : replaceFirstBackslash "a\\b\\c".data = "a\\\\b\\c".data := by decide
example : replaceFirstBackslash "a\\/b".data = "a\\/b".data := by decide

/-- Lexicographic comparison of char lists, as the JavaScript default sort
comparator compares strings. -/
def lexLe : List Char → List Char → Bool
  | [], _ => true
  | _ :: _, [] => false
  | a :: as, b :: bs => if a < b then true else if b < a then false else lexLe as bs

/-- String comparison for the JS default sort. -/
def strLeB (a b : String) : Bool := lexLe a.data b.data

/-- Stable insertion: the new element goes after existing elements that
compare less-or-equal. -/
def insertStr (a : String) : List String → List String
  | [] => [a]
  | b :: rest => if strLeB b a then b :: insertStr a rest else a :: b :: rest

/-- Stable ascending sort (JavaScript `Array.prototype.sort` with the default
string comparator is stable per ES2019). -/
def sortStrs (l : List String) : List String :=
  l.foldl (fun acc a => insertStr a acc) []

/-- JavaScript `Array.prototype.sort` on an array that may contain undefined
entries: defined values are sorted by the default comparator, undefined
values are moved to the end. -/
def jsSortOpt (l : List (Option String)) : List (Option String) :=
  (sortStrs (l.filterMap id)).map some ++ l.filter (fun o => o.isNone)

/-- JavaScript `Array.prototype.join('')`: undefined entries are converted to
the empty string. -/
def jsJoinOpt : List (Option String) → String
  | [] => ""
  | o :: rest => (o.getD "") ++ jsJoinOpt rest

/-- Plain concatenation of a list of strings. -/
def joinStrs : List String → String
  | [] => ""
  | s :: rest => s ++ joinStrs rest

/-- The Python generator's PYTHON_REGEX_FLAGS table (buildRegExp):
i→i, m→m, u→a, y→'' (dropped), g→s; any other flag is absent from the table,
so the lookup yields undefined. -/
def PYTHON_REGEX_FLAGS : Char → Option String
  | 'i' => some "i"
  | 'm' => some "m"
  | 'u' => some "a"
  | 'y' => some ""
  | 'g' => some "s"
  | _ => none

/-- The Java generator's JAVA_REGEX_FLAGS table: i→i, m→m, u→u, y→'' and
g→'' (both dropped). -/
def JAVA_REGEX_FLAGS : Char → Option String
  | 'i' => some "i"
  | 'm' => some "m"
  | 'u' => some "u"
  | 'y' => some ""
  | 'g' => some ""
  | _ => none

/-- Python buildRegExp (src/unnamed/part_000, lines 561-599): evaluate the
regex source in the sandbox; on failure raise a generic error; otherwise
double-escape the first unescaped backslash, and when the flag string is
non-empty, map each flag through PYTHON_REGEX_FLAGS, sort (JS semantics:
undefined entries last), join (undefined entries become empty), and append
the inline `(?...)` group. -/
def buildRegExp (evalRegex : String → Except String (String × String))
    (src : String) : Except SemErr String :=
  match evalRegex src with
  | .error e => .error (.generic e)
  | .ok (pattern, flags) =>
    let escaped := String.mk (replaceFirstBackslash pattern.data)
    if flags ≠ "" then
      .ok ("re.compile(r" ++ doubleQuoteStringify
        (escaped ++ "(?" ++ jsJoinOpt (jsSortOpt (flags.data.map PYTHON_REGEX_FLAGS)) ++ ")") ++ ")")
    else
      .ok ("re.compile(r" ++ doubleQuoteStringify escaped ++ ")")

/-- Java visitRegularExpressionLiteral (src/codegeneration/JavaGenerator.js,
lines 107-126): `flags.replace(/[imuyg]/g, m => JAVA_REGEX_FLAGS[m])`
replaces exactly the characters in the class and keeps the others, then the
inline group is added only when the result is non-empty. -/
def javaVisitRegularExpressionLiteral
    (evalRegex : String → Except String (String × String))
    (src : String) : Except SemErr String :=
  match evalRegex src with
  | .error e => .error (.generic e)
  | .ok (pattern, flags) =>
    let javaflags := joinStrs (flags.data.map (fun c =>
      match JAVA_REGEX_FLAGS c with
      | some s => s
      | none => String.mk [c]))
    let group := if javaflags = "" then "" else "(?" ++ javaflags ++ ")"
    let escaped := String.mk (replaceFirstBackslash pattern.data)
    .ok ("Pattern.compile(" ++ doubleQuoteStringify (escaped ++ group) ++ ")")

example :
    buildRegExp (fun _ => .ok ("foo", "gi")) "/foo/gi" =
      .ok "re.compile(r\"foo(?is)\")" := by decide

example :
    javaVisitRegularExpressionLiteral (fun _ => .ok ("foo", "gi")) "/foo/gi" =
      .ok "Pattern.compile(\"foo(?i)\")" := by decide

/-- C4, counterexample: for a regex whose evaluated pattern is `a\b\c` (two
backslashes, neither preceding a slash) both emitters double only the first
backslash: the emitted pattern is `a\\b\c`, not the fully doubled `a\\b\\c`
the claim requires. -/
theorem c4_counterexample :
    buildRegExp (fun _ => .ok ("a\\b\\c", "")) "/a\\b\\c/" =
      .ok ("re.compile(r" ++ doubleQuoteStringify "a\\\\b\\c" ++ ")") ∧
    buildRegExp (fun _ => .ok ("a\\b\\c", "")) "/a\\b\\c/" ≠
      .ok ("re.compile(r" ++ doubleQuoteStringify "a\\\\b\\\\c" ++ ")") ∧
    javaVisitRegularExpressionLiteral (fun _ => .ok ("a\\b\\c", "")) "/a\\b\\c/" =
      .ok ("Pattern.compile(" ++ doubleQuoteStringify "a\\\\b\\c" ++ ")") ∧
    javaVisitRegularExpressionLiteral (fun _ => .ok ("a\\b\\c", "")) "/a\\b\\c/" ≠
      .ok ("Pattern.compile(" ++ doubleQuoteStringify "a\\\\b\\\\c" ++ ")") := by
  refine ⟨by decide, by decide, by decide, by decide⟩

theorem replaceFirstBackslash_cons (c : Char) (rest : List Char) :
    replaceFirstBackslash (c :: rest) =
      if c = '\\' ∧ rest.head? ≠ some '/' then '\\' :: '\\' :: rest
      else c :: replaceFirstBackslash rest := rfl

theorem noBackslashMatch_cons (c : Char) (rest : List Char) :
    noBackslashMatch (c :: rest) =
      if c = '\\' ∧ rest.head? ≠ some '/' then false
      else noBackslashMatch rest := rfl

theorem replaceFirstBackslash_append (b : List Char) (hb : b.head? ≠ some '/') :
    ∀ a : List Char, noBackslashMatch a = true →
      replaceFirstBackslash (a ++ '\\' :: b) = a ++ '\\' :: '\\' :: b := by
  intro a
  induction a with
  | nil =>
    intro _
    rw [List.nil_append, List.nil_append, replaceFirstBackslash_cons,
      if_pos ⟨rfl, hb⟩]
  | cons c rest ih =>
    intro h
    rw [noBackslashMatch_cons] at h
    by_cases hc : c = '\\' ∧ rest.head? ≠ some '/'
    · rw [if_pos hc] at h
      exact Bool.noConfusion h
    · rw [if_neg hc] at h
      have hcond : ¬ (c = '\\' ∧ (rest ++ '\\' :: b).head? ≠ some '/') := by
        intro hcon
        apply hc
        refine ⟨hcon.1, ?_⟩
        intro hhead
        apply hcon.2
        cases rest with
        | nil => simp at hhead
        | cons r rs =>
          simp only [List.head?_cons] at hhead
          simp only [List.cons_append, List.head?_cons]
          exact hhead
      rw [List.cons_append, replaceFirstBackslash_cons, if_neg hcond, ih h,
        List.cons_append]

/-- C4 (amended): in both the Python and Java emitters, only the first
backslash of the compile-time-evaluated pattern that does not immediately
precede a slash is doubled (the source uses a non-global replace); every
later backslash is emitted unchanged.  Formally, if the pattern splits as
`a ++ '\' :: b` where `a` contains no doubling candidate and `b` does not
start with a slash, the emitted pattern is exactly `a ++ '\' :: '\' :: b`,
whatever backslashes `b` contains. -/
theorem c4_backslashEscape_amended
    (evalRegex : String → Except String (String × String)) (src : String)
    (a b : List Char)
    (ha : noBackslashMatch a = true) (hb : b.head? ≠ some '/')
    (hev : evalRegex src = .ok (String.mk (a ++ '\\' :: b), "")) :
    buildRegExp evalRegex src =
      .ok ("re.compile(r" ++
        doubleQuoteStringify (String.mk (a ++ '\\' :: '\\' :: b)) ++ ")") ∧
    javaVisitRegularExpressionLiteral evalRegex src =
      .ok ("Pattern.compile(" ++
        doubleQuoteStringify (String.mk (a ++ '\\' :: '\\' :: b)) ++ ")") := by
  have hrep : replaceFirstBackslash (a ++ '\\' :: b) = a ++ '\\' :: '\\' :: b :=
    replaceFirstBackslash_append b hb a ha
  constructor
  · simp [buildRegExp, hev, hrep]
  · simp [javaVisitRegularExpressionLiteral, hev, hrep, joinStrs,
      String.append_empty]

/-- C4 witness: the amended theorem applied to the pattern `a\b` (split as
`a := "a"`, `b := "b"`). -/
theorem c4_witness :
    buildRegExp (fun _ => .ok ("a\\b", "")) "/a\\b/" =
      .ok ("re.compile(r" ++ doubleQuoteStringify "a\\\\b" ++ ")") := by
  have h := (c4_backslashEscape_amended (fun _ => .ok ("a\\b", "")) "/a\\b/"
    ['a'] ['b'] (by decide) (by decide) rfl).1
  exact h

/-- The claim's Python flag table: i→i, m→m, u→a, g→s, y dropped. -/
def c7PyFlagChar (c : Char) : String :=
  if c = 'i' then "i" else if c = 'm' then "m" else if c = 'u' then "a"
  else if c = 'g' then "s" else ""

/-- The claim's Java flag table: i→i, m→m, u→u, y and g dropped. -/
def c7JavaFlagChar (c : Char) : String :=
  if c = 'i' then "i" else if c = 'm' then "m" else if c = 'u' then "u" else ""

theorem jsJoinOpt_map_some (l : List String) : jsJoinOpt (l.map some) = joinStrs l := by
  induction l with
  | nil => rfl
  | cons s rest ih => simp [jsJoinOpt, joinStrs, ih]

theorem jsSortOpt_map_some (f : Char → String) (l : List Char) :
    jsSortOpt (l.map (fun c => some (f c))) = (sortStrs (l.map f)).map some := by
  unfold jsSortOpt
  have h1 : (l.map (fun c => some (f c))).filterMap id = l.map f := by
    rw [List.filterMap_map]
    exact List.filterMap_eq_map f ▸ rfl
  have h2 : (l.map (fun c => some (f c))).filter (fun o => o.isNone) = [] := by
    rw [List.filter_eq_nil_iff]
    intro o ho
    rw [List.mem_map] at ho
    obtain ⟨c, _, rfl⟩ := ho
    simp
  rw [h1, h2, List.append_nil]

/-- C7: for every regex whose evaluated flags all lie in `{i, m, u, y, g}`,
the Python emitter maps i→i, m→m, u→a, g→s, drops y, sorts the surviving
flags ascending (stably) and appends them as an inline `(?...)` group, while
the Java emitter maps i→i, m→m, u→u, drops y and g, and appends the inline
group only when non-empty. -/
theorem c7_regexFlagTables (evalRegex : String → Except String (String × String))
    (src : String) (pattern flags : String)
    (hev : evalRegex src = .ok (pattern, flags))
    (hfl : ∀ c ∈ flags.data, c = 'i' ∨ c = 'm' ∨ c = 'u' ∨ c = 'y' ∨ c = 'g') :
    (flags ≠ "" →
      buildRegExp evalRegex src =
        .ok ("re.compile(r" ++ doubleQuoteStringify
          (String.mk (replaceFirstBackslash pattern.data) ++
            "(?" ++ joinStrs (sortStrs (flags.data.map c7PyFlagChar)) ++ ")") ++ ")")) ∧
    javaVisitRegularExpressionLiteral evalRegex src =
      .ok ("Pattern.compile(" ++ doubleQuoteStringify
        (String.mk (replaceFirstBackslash pattern.data) ++
          (if joinStrs (flags.data.map c7JavaFlagChar) = "" then ""
           else "(?" ++ joinStrs (flags.data.map c7JavaFlagChar) ++ ")")) ++ ")") := by
  constructor
  · intro hne
    have hmapp : flags.data.map PYTHON_REGEX_FLAGS =
        flags.data.map (fun c => some (c7PyFlagChar c)) :=
      List.map_congr_left (fun c hc => by
        rcases hfl c hc with rfl | rfl | rfl | rfl | rfl <;> rfl)
    simp only [buildRegExp, hev, hmapp]
    rw [if_pos hne, jsSortOpt_map_some, jsJoinOpt_map_some]
  · have hmapj : flags.data.map (fun c =>
        match JAVA_REGEX_FLAGS c with
        | some s => s
        | none => String.mk [c]) = flags.data.map c7JavaFlagChar :=
      List.map_congr_left (fun c hc => by
        rcases hfl c hc with rfl | rfl | rfl | rfl | rfl <;> rfl)
    simp only [javaVisitRegularExpressionLiteral, hev, hmapj]

/-- C7 witness: the theorem applied to `/foo/gi`, yielding the claim's two
concrete outputs. -/
theorem c7_witness :
    buildRegExp (fun _ => .ok ("foo", "gi")) "/foo/gi" =
      .ok "re.compile(r\"foo(?is)\")" ∧
    javaVisitRegularExpressionLiteral (fun _ => .ok ("foo", "gi")) "/foo/gi" =
      .ok "Pattern.compile(\"foo(?i)\")" := by
  have h := c7_regexFlagTables (fun _ => .ok ("foo", "gi")) "/foo/gi" "foo" "gi"
    rfl (by decide)
  exact ⟨(h.1 (by decide)).trans (by decide), h.2.trans (by decide)⟩

/-- C10, counterexample: for `/foo/s` (JavaScript dotAll, absent from
PYTHON_REGEX_FLAGS) the Python emitter raises nothing and emits
`re.compile(r"foo(?)")` — the undefined table entry is rendered by
`Array.join` as the empty string, so the output does not embed the literal
text `undefined` anywhere, contrary to the claim. -/
theorem c10_counterexample :
    buildRegExp (fun _ => .ok ("foo", "s")) "/foo/s" =
      .ok "re.compile(r\"foo(?)\")" ∧
    ¬ List.IsInfix "undefined".data "re.compile(r\"foo(?)\")".data := by
  exact ⟨by decide, by decide⟩

theorem jsJoinOpt_append (l₁ l₂ : List (Option String)) :
    jsJoinOpt (l₁ ++ l₂) = jsJoinOpt l₁ ++ jsJoinOpt l₂ := by
  induction l₁ with
  | nil => simp [jsJoinOpt, String.empty_append]
  | cons o rest ih => simp [jsJoinOpt, ih, String.append_assoc]

theorem jsJoinOpt_all_none (l : List (Option String))
    (h : ∀ o ∈ l, o.isNone = true) : jsJoinOpt l = "" := by
  induction l with
  | nil => rfl
  | cons o rest ih =>
    have ho := h o (List.mem_cons_self _ _)
    cases o with
    | none =>
      have : jsJoinOpt (none :: rest) = "" ++ jsJoinOpt rest := rfl
      rw [this, String.empty_append]
      exact ih (fun o ho' => h o (List.mem_cons_of_mem _ ho'))
    | some s => simp at ho

theorem jsJoin_jsSort (l : List (Option String)) :
    jsJoinOpt (jsSortOpt l) = joinStrs (sortStrs (l.filterMap id)) := by
  unfold jsSortOpt
  rw [jsJoinOpt_append, jsJoinOpt_map_some,
    jsJoinOpt_all_none _ (fun o ho => by
      have := List.mem_filter.mp ho
      simpa using this.2),
    String.append_empty]

/-- C10 (amended): buildRegExp raises a generic error exactly when sandbox
evaluation of the regex source fails; on success it always returns an output
string, and for a non-empty flag string the inline group holds the sorted
images of the flags that are present in PYTHON_REGEX_FLAGS — a flag outside
`{i, m, u, y, g}` looks up an undefined entry which `join` renders as the
empty string, so it is silently dropped; the output never embeds the literal
text `undefined`. -/
theorem c10_buildRegExp_amended
    (evalRegex : String → Except String (String × String)) (src : String) :
    (∀ e, evalRegex src = .error e →
      buildRegExp evalRegex src = .error (.generic e)) ∧
    (∀ pattern flags, evalRegex src = .ok (pattern, flags) →
      ∃ s, buildRegExp evalRegex src = .ok s) ∧
    (∀ pattern flags, evalRegex src = .ok (pattern, flags) → flags ≠ "" →
      buildRegExp evalRegex src =
        .ok ("re.compile(r" ++ doubleQuoteStringify
          (String.mk (replaceFirstBackslash pattern.data) ++ "(?" ++
            joinStrs (sortStrs (flags.data.filterMap PYTHON_REGEX_FLAGS)) ++ ")") ++ ")")) := by
  refine ⟨?_, ?_, ?_⟩
  · intro e he
    simp [buildRegExp, he]
  · intro pattern flags hok
    by_cases hne : flags = ""
    · subst hne
      refine ⟨"re.compile(r" ++
        doubleQuoteStringify (String.mk (replaceFirstBackslash pattern.data)) ++ ")", ?_⟩
      simp [buildRegExp, hok]
    · refine ⟨"re.compile(r" ++ doubleQuoteStringify
        (String.mk (replaceFirstBackslash pattern.data) ++ "(?" ++
          jsJoinOpt (jsSortOpt (flags.data.map PYTHON_REGEX_FLAGS)) ++ ")") ++ ")", ?_⟩
      simp only [buildRegExp, hok]
      rw [if_pos hne]
  · intro pattern flags hok hne
    have hmap : (flags.data.map PYTHON_REGEX_FLAGS).filterMap id =
        flags.data.filterMap PYTHON_REGEX_FLAGS := by
      rw [List.filterMap_map]
      rfl
    simp only [buildRegExp, hok]
    rw [if_pos hne, jsJoin_jsSort, hmap]

/-- C10 witness: the amended theorem applied to `/foo/si`; the unsupported
`s` flag is dropped and only `i` survives into the inline group. -/
theorem c10_witness :
    buildRegExp (fun _ => .ok ("foo", "si")) "/foo/si" =
      .ok "re.compile(r\"foo(?i)\")" := by
  have h := (c10_buildRegExp_amended (fun _ => .ok ("foo", "si")) "/foo/si").2.2
    "foo" "si" rfl (by decide)
  exact h.trans (by decide)

/-! ## Date emitters (Python visitDateConstructorExpression and
visitDateNowConstructorExpression) -/

/-- The UTC components the source reads off the sandbox-evaluated Date:
getUTCFullYear, getUTCMonth (0-based), getUTCDate, getUTCHours,
getUTCMinutes, getUTCSeconds. -/
structure DateParts where
  utcFullYear : Int
  utcMonth : Int
  utcDate : Int
  utcHours : Int
  utcMinutes : Int
  utcSeconds : Int
  deriving DecidableEq, Repr

/-- Python visitDateConstructorExpression (src/unnamed/part_000, lines
284-309): a null argument list yields the date-only rendering
`datetime.datetime.utcnow().date()`; with arguments the call is
sandbox-evaluated and emitted as the UTC-decomposed constructor with
`tzinfo=datetime.timezone.utc`, the month incremented by one. -/
def visitDateConstructorExpression (evalDate : String → Except String DateParts)
    (argumentList : Option (List Arg)) (src : String) : Except SemErr String :=
  match argumentList with
  | none => .ok "datetime.datetime.utcnow().date()"
  | some _ =>
    match evalDate src with
    | .error e => .error (.generic e)
    | .ok d =>
      let dateStr := String.intercalate ", "
        ([d.utcFullYear, d.utcMonth + 1, d.utcDate,
          d.utcHours, d.utcMinutes, d.utcSeconds].map toString)
      .ok ("datetime.datetime(" ++ dateStr ++ ", tzinfo=datetime.timezone.utc)")

/-- Python visitDateNowConstructorExpression (src/unnamed/part_000, lines
317-319): unconditionally `datetime.datetime.utcnow()`. -/
def visitDateNowConstructorExpression : String := "datetime.datetime.utcnow()"

/-- C5, counterexample: the Date constructor visited with no arguments emits
the date-only rendering `datetime.datetime.utcnow().date()`, not
`datetime.datetime.utcnow()` as the claim states; the latter is produced by
the separate Date-now visitor. -/
theorem c5_counterexample :
    visitDateConstructorExpression (fun _ => .error "unused") none "Date()" =
      .ok "datetime.datetime.utcnow().date()" ∧
    visitDateConstructorExpression (fun _ => .error "unused") none "Date()" ≠
      .ok "datetime.datetime.utcnow()" := by
  exact ⟨rfl, by decide⟩

/-- C5 (amended): for the Python target, the Date constructor visited with no
arguments emits exactly `datetime.datetime.utcnow().date()` (the date-only
rendering), while `datetime.datetime.utcnow()` is emitted by the separate
Date-now visitor; the Date constructor with arguments is sandbox-evaluated
and emitted as a UTC-decomposed `datetime.datetime(...)` constructor with
`tzinfo=datetime.timezone.utc` (month incremented by one), a failing
evaluation raising a generic error. -/
theorem c5_dateEmit_amended (evalDate : String → Except String DateParts)
    (src : String) :
    (visitDateConstructorExpression evalDate none src =
      .ok "datetime.datetime.utcnow().date()") ∧
    (visitDateNowConstructorExpression = "datetime.datetime.utcnow()") ∧
    (∀ args d, evalDate src = .ok d →
      visitDateConstructorExpression evalDate (some args) src =
        .ok ("datetime.datetime(" ++ String.intercalate ", "
          ([d.utcFullYear, d.utcMonth + 1, d.utcDate,
            d.utcHours, d.utcMinutes, d.utcSeconds].map toString) ++
          ", tzinfo=datetime.timezone.utc)")) ∧
    (∀ args e, evalDate src = .error e →
      visitDateConstructorExpression evalDate (some args) src =
        .error (.generic e)) := by
  refine ⟨rfl, rfl, ?_, ?_⟩
  · intro args d hd
    simp [visitDateConstructorExpression, hd]
  · intro args e he
    simp [visitDateConstructorExpression, he]

/-- C5 witness: the amended theorem applied to `new Date(1, 2, 3)` with a
concrete evaluated date. -/
theorem c5_witness :
    visitDateConstructorExpression
        (fun _ => .ok ⟨2018, 2, 13, 17, 6, 9⟩) (some [⟨"1", Ty._integer⟩])
        "Date(1)" =
      .ok "datetime.datetime(2018, 3, 13, 17, 6, 9, tzinfo=datetime.timezone.utc)" := by
  have h := (c5_dateEmit_amended (fun _ => .ok ⟨2018, 2, 13, 17, 6, 9⟩)
    "Date(1)").2.2.1 [⟨"1", Ty._integer⟩] ⟨2018, 2, 13, 17, 6, 9⟩ rfl
  exact h.trans (by decide)

/-! ## ObjectId emitters (Python visitBSONObjectIdConstructor, Java
emitObjectId) -/

/-- Python visitBSONObjectIdConstructor (src/unnamed/part_000, lines
147-169): a null argument list emits the bare constructor; otherwise exactly
one argument is required (`getChildCount() !== 1`), the call's source text is
sandbox-evaluated, and the resulting hex string is embedded single-quoted.
The oracle models `executeJavascript(...).toHexString()`. -/
def visitBSONObjectIdConstructor (evalHex : String → Except String String)
    (argumentList : Option (List Arg)) (src : String) : Except SemErr String :=
  match argumentList with
  | none => .ok "ObjectId()"
  | some args =>
    if args.length ≠ 1 then
      .error (.argCount "ObjectId requires zero or one argument")
    else
      match evalHex src with
      | .error e => .error (.generic e)
      | .ok hexstr => .ok ("ObjectId(" ++ singleQuoteStringify hexstr ++ ")")

/-- Java emitObjectId (src/codegeneration/JavaGenerator.js, lines 197-210):
a null argument list emits the bare constructor; otherwise the source text is
sandbox-evaluated with NO argument-count check of any kind, and the hex
string is embedded double-quoted. -/
def emitObjectId (evalHex : String → Except String String)
    (argumentList : Option (List Arg)) (src : String) : Except SemErr String :=
  match argumentList with
  | none => .ok "new ObjectId()"
  | some _ =>
    match evalHex src with
    | .error e => .error (.generic e)
    | .ok hexstr => .ok ("new ObjectId(" ++ doubleQuoteStringify hexstr ++ ")")

/-- C6, counterexample: with two arguments, the Python emitter raises an
argument-count mismatch, but the Java emitter performs no count check at all:
it sandbox-evaluates the call (the bson ObjectID shim ignores extra
arguments) and emits a successful constructor — so it is false that every
target raises an argument-count mismatch for two or more arguments. -/
theorem c6_counterexample :
    emitObjectId (fun _ => .ok "5ab901c29ee65f5c8550c5b9")
        (some [⟨"a", Ty._string⟩, ⟨"b", Ty._string⟩]) "ObjectId(a, b)" =
      .ok ("new ObjectId(" ++ doubleQuoteStringify "5ab901c29ee65f5c8550c5b9" ++ ")") ∧
    visitBSONObjectIdConstructor (fun _ => .ok "5ab901c29ee65f5c8550c5b9")
        (some [⟨"a", Ty._string⟩, ⟨"b", Ty._string⟩]) "ObjectId(a, b)" =
      .error (.argCount "ObjectId requires zero or one argument") := by
  exact ⟨rfl, by decide⟩

/-- C6 (amended): the ObjectId emitters accept zero arguments in both targets,
emitting the bare constructor form; with one argument both sandbox-evaluate
the call's source text and embed the resulting hex string as a quoted literal
(so a call evaluating to hex h round-trips h into the output); but only the
Python emitter rejects two or more arguments with an argument-count mismatch
— the Java emitter performs no count check and emits whatever hex the sandbox
evaluation produces, raising only a generic error when that evaluation
fails. -/
theorem c6_objectId_amended (evalHex : String → Except String String)
    (src : String) :
    (visitBSONObjectIdConstructor evalHex none src = .ok "ObjectId()") ∧
    (emitObjectId evalHex none src = .ok "new ObjectId()") ∧
    (∀ a h, evalHex src = .ok h →
      visitBSONObjectIdConstructor evalHex (some [a]) src =
        .ok ("ObjectId(" ++ singleQuoteStringify h ++ ")")) ∧
    (∀ args h, evalHex src = .ok h →
      emitObjectId evalHex (some args) src =
        .ok ("new ObjectId(" ++ doubleQuoteStringify h ++ ")")) ∧
    (∀ args, args.length ≥ 2 →
      visitBSONObjectIdConstructor evalHex (some args) src =
        .error (.argCount "ObjectId requires zero or one argument")) ∧
    (∀ args e, evalHex src = .error e →
      emitObjectId evalHex (some args) src = .error (.generic e)) := by
  refine ⟨rfl, rfl, ?_, ?_, ?_, ?_⟩
  · intro a h hh
    simp [visitBSONObjectIdConstructor, hh]
  · intro args h hh
    simp [emitObjectId, hh]
  · intro args hlen
    have : args.length ≠ 1 := by omega
    simp [visitBSONObjectIdConstructor, this]
  · intro args e he
    simp [emitObjectId, he]

/-- C6 witness: the amended theorem applied to
`ObjectId('5ab901c29ee65f5c8550c5b9')` in the Python target — the hex string
round-trips into the output. -/
theorem c6_witness :
    visitBSONObjectIdConstructor (fun _ => .ok "5ab901c29ee65f5c8550c5b9")
        (some [⟨singleQuoteStringify "5ab901c29ee65f5c8550c5b9", Ty._string⟩])
        ("ObjectId(" ++ singleQuoteStringify "5ab901c29ee65f5c8550c5b9" ++ ")") =
      .ok ("ObjectId(" ++ singleQuoteStringify "5ab901c29ee65f5c8550c5b9" ++ ")") := by
  have h := (c6_objectId_amended (fun _ => .ok "5ab901c29ee65f5c8550c5b9")
    ("ObjectId(" ++ singleQuoteStringify "5ab901c29ee65f5c8550c5b9" ++ ")")).2.2.1
    ⟨singleQuoteStringify "5ab901c29ee65f5c8550c5b9", Ty._string⟩
    "5ab901c29ee65f5c8550c5b9" rfl
  exact h

/-! ## Octal literals (Python visitOctalIntegerLiteral)

The grammar's OctalIntegerLiteral is `0` followed by octal digits, or `0o`
or `0O` followed by octal digits.  The Python visitor computes an offset —
2 when the text starts with `00`, `0o` or `0O`, 1 when it starts with `0` —
and emits `0o` followed by `text.substr(offset, text.length - 1)` (substr
takes a length, which here always covers the whole remainder). -/

/-- An octal digit. -/
def isOctDigit (c : Char) : Bool := decide ('0' ≤ c ∧ c ≤ '7')

/-- The numeric value of a string of octal digits. -/
def octDigitsVal (ds : List Char) : Nat :=
  ds.foldl (fun a c => a * 8 + (c.toNat - '0'.toNat)) 0

/-- Acceptance by the grammar rule OctalIntegerLiteral. -/
def isOctalLiteral (cs : List Char) : Bool :=
  match cs with
  | [] => false
  | c0 :: rest =>
    if c0 = '0' then
      match rest with
      | [] => false
      | c1 :: ds =>
        if c1 = 'o' ∨ c1 = 'O' then !ds.isEmpty && ds.all isOctDigit
        else rest.all isOctDigit
    else false

/-- The value denoted by an accepted octal literal (0 on other inputs). -/
def octLitVal (cs : List Char) : Nat :=
  match cs with
  | [] => 0
  | c0 :: rest =>
    if c0 = '0' then
      match rest with
      | [] => 0
      | c1 :: ds =>
        if c1 = 'o' ∨ c1 = 'O' then octDigitsVal ds else octDigitsVal rest
    else 0

/-- The Python visitOctalIntegerLiteral (src/unnamed/part_000, lines 483-501)
on the literal text, over characters: compute the prefix offset and emit
`0o` plus `substr(offset, length - 1)`. -/
def emitOctalChars (cs : List Char) : List Char :=
  let offset : Nat :=
    match cs with
    | c0 :: c1 :: _ =>
      if c0 = '0' ∧ (c1 = '0' ∨ c1 = 'o' ∨ c1 = 'O') then 2
      else if c0 = '0' then 1 else 0
    | c0 :: [] => if c0 = '0' then 1 else 0
    | [] => 0
  '0' :: 'o' :: ((cs.drop offset).take (cs.length - 1))

/-- String form of the Python octal visitor. -/
def visitOctalIntegerLiteral (text : String) : String :=
  String.mk (emitOctalChars text.data)

/-- A well-formed Python octal literal: `0o` followed by at least one octal
digit. -/
def wellFormedPyOctal (cs : List Char) : Bool :=
  match cs with
  | c0 :: c1 :: ds =>
    decide (c0 = '0') && decide (c1 = 'o') && !ds.isEmpty && ds.all isOctDigit
  | _ => false

/-- The value denoted by a well-formed Python octal literal. -/
def pyOctalVal (cs : List Char) : Nat :=
  match cs with
  | c0 :: c1 :: ds => if c0 = '0' ∧ c1 = 'o' then octDigitsVal ds else 0
  | _ => 0

example : visitOctalIntegerLiteral "017" = "0o17" := by decide
example : octLitVal "017".data = 15 ∧ pyOctalVal "0o17".data = 15 := by decide

/-- C8, counterexample: the input `00` is an accepted octal literal (value 0),
but the emitter strips both characters as a prefix and emits the bare `0o`,
which is not a well-formed octal literal — refuting the claim that every
accepted octal literal (including the edge input `00`) emits a well-formed
equal-valued literal. -/
theorem c8_counterexample :
    isOctalLiteral "00".data = true ∧
    visitOctalIntegerLiteral "00" = "0o" ∧
    wellFormedPyOctal (visitOctalIntegerLiteral "00").data = false := by
  exact ⟨by decide, by decide, by decide⟩

theorem octDigitsVal_leading_zero (ds : List Char) :
    octDigitsVal ('0' :: ds) = octDigitsVal ds := rfl

/-- C8 (amended): for every accepted octal integer literal other than the
edge input `00`, the Python emitter strips the leading `0`, `00`, `0o` or
`0O` prefix and emits `0o` followed by the remaining digits, and the emitted
text is a well-formed octal literal denoting the same integer value; the
input `00`, however, emits the bare `0o`, which is not well-formed. -/
theorem c8_octal_amended (cs : List Char)
    (hlit : isOctalLiteral cs = true) (hne : cs ≠ ['0', '0']) :
    wellFormedPyOctal (emitOctalChars cs) = true ∧
    pyOctalVal (emitOctalChars cs) = octLitVal cs := by
  rcases cs with _ | ⟨c0, _ | ⟨c1, ds⟩⟩
  · simp [isOctalLiteral] at hlit
  · by_cases h0 : c0 = '0' <;> simp [isOctalLiteral, h0] at hlit
  · by_cases h0 : c0 = '0'
    · subst h0
      have hstep : isOctalLiteral ('0' :: c1 :: ds) =
          (if c1 = 'o' ∨ c1 = 'O' then !ds.isEmpty && ds.all isOctDigit
           else (c1 :: ds).all isOctDigit) := rfl
      rw [hstep] at hlit
      by_cases h1 : c1 = 'o' ∨ c1 = 'O'
      · rw [if_pos h1] at hlit
        simp only [Bool.and_eq_true, Bool.not_eq_true'] at hlit
        have hdne : ds ≠ [] := by
          intro hcon
          rw [hcon] at hlit
          simp at hlit
        have hvl : octLitVal ('0' :: c1 :: ds) = octDigitsVal ds := by
          have hv : octLitVal ('0' :: c1 :: ds) =
              (if c1 = 'o' ∨ c1 = 'O' then octDigitsVal ds
               else octDigitsVal (c1 :: ds)) := rfl
          rw [hv, if_pos h1]
        rcases h1 with rfl | rfl
        · have hemit : emitOctalChars ('0' :: 'o' :: ds) =
              '0' :: 'o' :: (ds.take (ds.length + 2 - 1)) := rfl
          rw [show ds.length + 2 - 1 = ds.length + 1 from by omega,
            List.take_of_length_le (by omega)] at hemit
          rw [hemit, hvl]
          constructor
          · simp [wellFormedPyOctal, hlit.1, hlit.2, hdne]
          · simp [pyOctalVal]
        · have hemit : emitOctalChars ('0' :: 'O' :: ds) =
              '0' :: 'o' :: (ds.take (ds.length + 2 - 1)) := rfl
          rw [show ds.length + 2 - 1 = ds.length + 1 from by omega,
            List.take_of_length_le (by omega)] at hemit
          rw [hemit, hvl]
          constructor
          · simp [wellFormedPyOctal, hlit.1, hlit.2, hdne]
          · simp [pyOctalVal]
      · rw [if_neg h1] at hlit
        have hvl : octLitVal ('0' :: c1 :: ds) = octDigitsVal (c1 :: ds) := by
          have hv : octLitVal ('0' :: c1 :: ds) =
              (if c1 = 'o' ∨ c1 = 'O' then octDigitsVal ds
               else octDigitsVal (c1 :: ds)) := rfl
          rw [hv, if_neg h1]
        by_cases h2 : c1 = '0'
        · subst h2
          have hdne : ds ≠ [] := by
            intro hcon
            exact hne (by rw [hcon])
          have hemit : emitOctalChars ('0' :: '0' :: ds) =
              '0' :: 'o' :: (ds.take (ds.length + 2 - 1)) := rfl
          rw [show ds.length + 2 - 1 = ds.length + 1 from by omega,
            List.take_of_length_le (by omega)] at hemit
          rw [hemit, hvl]
          simp only [List.all_cons, Bool.and_eq_true] at hlit
          constructor
          · simp [wellFormedPyOctal, hlit.2, hdne]
          · rw [octDigitsVal_leading_zero]
            simp [pyOctalVal]
        · have hcond : ¬ (('0' : Char) = '0' ∧ (c1 = '0' ∨ c1 = 'o' ∨ c1 = 'O')) := by
            intro hcon
            rcases hcon.2 with h | h | h
            · exact h2 h
            · exact h1 (Or.inl h)
            · exact h1 (Or.inr h)
          have hemit : emitOctalChars ('0' :: c1 :: ds) =
              '0' :: 'o' ::
                ((('0' :: c1 :: ds).drop
                  (if ('0' : Char) = '0' ∧ (c1 = '0' ∨ c1 = 'o' ∨ c1 = 'O') then 2
                   else if ('0' : Char) = '0' then 1 else 0)).take (ds.length + 2 - 1)) := rfl
          rw [if_neg hcond, if_pos rfl,
            show (('0' :: c1 :: ds).drop 1) = c1 :: ds from rfl,
            show ds.length + 2 - 1 = ds.length + 1 from by omega,
            List.take_of_length_le (by simp)] at hemit
          rw [hemit, hvl]
          constructor
          · simp only [wellFormedPyOctal]
            simp [hlit]
          · simp [pyOctalVal]
    · simp [isOctalLiteral, h0] at hlit

/-- C8 witness: the amended theorem applied to the legacy-prefixed literal
`017`, which emits the well-formed `0o17` of equal value 15. -/
theorem c8_witness :
    wellFormedPyOctal (emitOctalChars "017".data) = true ∧
    pyOctalVal (emitOctalChars "017".data) = octLitVal "017".data := by
  have h := c8_octal_amended "017".data (by decide) (by decide)
  exact h

/-! ## Type tagging during the walk (CodeGenerator.visitChildren,
getPrimitiveType, visitTerminal)

A parse-tree node either is a terminal (visited by `visitTerminal`, which
returns its text and never writes the `type` slot) or a rule node.  A rule
node's visit method may set `ctx.type` directly (`directType = some _`,
e.g. `visitLiteralExpression` via `getPrimitiveType`); otherwise the shared
`visitChildren` runs with `ctx.type === undefined` and assigns the first
child's type, or `_undefined` when there are no children. -/

mutual

inductive PTree where
  | terminal (text : String)
  | rule (directType : Option Ty) (children : PForest)

inductive PForest where
  | nil
  | cons (t : PTree) (f : PForest)

end

/-- The content of a node's `type` slot after its visit: terminals never get
one; a direct-setting visit method stores its type; the generic
`visitChildren` default stores the first child's post-visit type, or
`_undefined` for a childless node. -/
def walkType : PTree → Option Ty
  | .terminal _ => none
  | .rule (some t) _ => some t
  | .rule none .nil => some Ty._undefined
  | .rule none (.cons c _) => walkType c

mutual

/-- The emitted text: terminals yield their text, rule nodes concatenate
their children (visitChildren with the default empty separator). -/
def emitText : PTree → String
  | .terminal t => t
  | .rule _ cs => emitForest cs

def emitForest : PForest → String
  | .nil => ""
  | .cons t f => emitText t ++ emitForest f

end

mutual

/-- The post-walk `type` slots of every visited node of the tree. -/
def walkTypes : PTree → List (Option Ty)
  | .terminal _ => [none]
  | .rule d cs => walkType (.rule d cs) :: forestTypes cs

/-- The post-walk `type` slots of every node of a forest. -/
def forestTypes : PForest → List (Option Ty)
  | .nil => []
  | .cons t f => walkTypes t ++ forestTypes f

end

/-- Whether the chain of first children through generic (non-direct-typing)
rule nodes ends at a terminal. -/
def leftSpineTerminal : PTree → Bool
  | .terminal _ => true
  | .rule (some _) _ => false
  | .rule none .nil => false
  | .rule none (.cons c _) => leftSpineTerminal c

/-- The syntactic kinds `getPrimitiveType` distinguishes, with `otherL` for a
literal matching none of its tests. -/
inductive LitKind where
  | nullL | undefinedL | boolL | stringL | regexL | integerL | decimalL | hexL | octalL | otherL

/-- CodeGenerator.getPrimitiveType (JavaGenerator.js lines 642-675): map the
literal's syntactic form to a type, defaulting to `_undefined`. -/
def getPrimitiveType : LitKind → Ty
  | .nullL => Ty._null
  | .undefinedL => Ty._undefined
  | .boolL => Ty._bool
  | .stringL => Ty._string
  | .regexL => Ty._regex
  | .integerL => Ty._integer
  | .decimalL => Ty._decimal
  | .hexL => Ty._hex
  | .octalL => Ty._octal
  | .otherL => Ty._undefined

/-- The parse subtree of the literal `5`: the literal-expression node sets
`_integer` directly via getPrimitiveType, its inner literal rule node is
visited generically, and the leaf is a terminal. -/
def c9tree : PTree :=
  .rule (some Ty._integer) (.cons (.rule none (.cons (.terminal "5") .nil)) .nil)

/-- C9, counterexample: the tree for the literal `5` translates successfully
(emitting "5"), yet its inner literal rule node still has no type after the
walk: `visitChildren` defaulted it to the first child's type, and terminals
never receive one — refuting the claim that every visited node has a non-null
type after the walk. -/
theorem c9_counterexample :
    emitText c9tree = "5" ∧
    walkType (.rule none (.cons (.terminal "5") .nil)) = none ∧
    none ∈ walkTypes c9tree := by
  refine ⟨rfl, rfl, ?_⟩
  simp [c9tree, walkTypes, forestTypes, walkType]

theorem walkType_none_iff : ∀ t : PTree, walkType t = none ↔ leftSpineTerminal t = true
  | .terminal s => by simp [walkType, leftSpineTerminal]
  | .rule (some ty) cs => by simp [walkType, leftSpineTerminal]
  | .rule none .nil => by simp [walkType, leftSpineTerminal]
  | .rule none (.cons c f) => by
    have ih := walkType_none_iff c
    simp only [walkType, leftSpineTerminal]
    exact ih

/-- C9 (amended): after the walk, a node visited by a type-setting method
carries exactly that type, and literal leaves matching no typing rule default
to `_undefined`; but a node's type slot remains unset precisely when its
chain of first children through generically visited rule nodes ends at a
terminal, because terminals never receive a type and the visit-children
default copies the first child's (possibly absent) type.  Hence inner rule
nodes above a terminal first child stay untyped even on a successful
translation. -/
theorem c9_typeTagging_amended :
    (∀ t : PTree, walkType t = none ↔ leftSpineTerminal t = true) ∧
    (∀ (ty : Ty) (cs : PForest), walkType (.rule (some ty) cs) = some ty) ∧
    getPrimitiveType LitKind.otherL = Ty._undefined := by
  refine ⟨walkType_none_iff, ?_, rfl⟩
  intro ty cs
  rfl

